import Mathlib

/-!
Verification of `shanoir2bids_heudiconv.py`.

This file gives a shallow embedding of the configuration loader, the query
builder, the subject-name normalization, the heudiconv-heuristic emitter and
the per-subject download loop of `shanoir2bids_heudiconv.py`, and proves the
behavioural properties claimed of them.

Strings are modelled as `List Char`.  Python `str.replace` is modelled by
`pyReplace` below, which performs the same left-to-right, non-overlapping,
non-rescanning replacement of every occurrence of the pattern (and the same
interleaving behaviour for the empty pattern).  Machine-level concerns
(filesystem, network, zip extraction) are external collaborators in the
source; they appear here only through the data they hand to the core logic.
-/

/-! ## Python `str.replace` -/

/-- Fuel-driven worker for `replNE`.  At each position: if the pattern is a
prefix of the remaining input, emit the replacement and continue after the
matched occurrence (no rescan of the emitted text); otherwise emit one
character and continue.  The fuel is only a structural-recursion device;
`replGo_fuel` shows any fuel at least the input length gives the same
result. -/
def replGo (p r : List Char) : Nat → List Char → List Char
  | _, [] => []
  | 0, s => s
  | f+1, c :: t =>
    if p <+: (c :: t) then r ++ replGo p r f (t.drop (p.length - 1))
    else c :: replGo p r f t

/-- Replacement of every occurrence of a non-empty pattern `p` by `r`,
scanning left to right, exactly as CPython `str.replace` does for a
non-empty pattern. -/
def replNE (p r s : List Char) : List Char := replGo p r s.length s

/-- Python `s.replace(p, r)`.  For an empty pattern CPython inserts `r`
before every character and at the end; otherwise it is `replNE`. -/
def pyReplace (p r s : List Char) : List Char :=
  if p = [] then r ++ s.foldr (fun c acc => c :: (r ++ acc)) [] else replNE p r s

/-! ## Association lists with Python `dict` semantics

The generated heuristic code and the configuration loader use Python dicts.
A dict is modelled as an association list with unique keys in insertion
order: lookup takes the first (hence only) binding, assignment to a present
key updates the binding in place, assignment to a fresh key appends. -/

/-- Lookup in an association list (Python `d[k]` / `k in d`). -/
def alookup {α β : Type} [DecidableEq α] : List (α × β) → α → Option β
  | [], _ => none
  | (k', v) :: m, k => if k = k' then some v else alookup m k

/-- Python `d[k] = v`: overwrite in place if the key is present (keeping its
position), append otherwise. -/
def dictInsert {α β : Type} [DecidableEq α] : List (α × β) → α → β → List (α × β)
  | [], k, v => [(k, v)]
  | (k', w) :: m, k, v => if k = k' then (k', v) :: m else (k', w) :: dictInsert m k v

/-- The idiom `if k in d then d[k].append(v) else d[k] = [v]` used by the
generated `infotodict`. -/
def insertAppend {α β : Type} [DecidableEq α] : List (α × List β) → α → β → List (α × List β)
  | [], k, v => [(k, [v])]
  | (k', l) :: m, k, v =>
    if k = k' then (k', l ++ [v]) :: m else (k', l) :: insertAppend m k v

/-! ## Configuration model (`read_json_config_file`) -/

/-- An element of a top-level json array in the configuration document:
either a string (a subject name) or a flat object with string values (a
`data_to_bids` entry or a find-and-replace rule).  The loader never looks
deeper than this. -/
inductive JLeaf : Type where
  | lstr : List Char → JLeaf
  | lobj : List (List Char × List Char) → JLeaf
deriving DecidableEq

/-- A top-level json value of the configuration document, as far as the
configuration loader inspects it: a string, an array of `JLeaf`, or null. -/
inductive JVal : Type where
  | jstr : List Char → JVal
  | jlist : List JLeaf → JVal
  | jnull : JVal
deriving DecidableEq

/-- Key `study_name` of the json configuration file. -/
def K_JSON_STUDY_NAME : List Char := "study_name".data

/-- Key `subjects` of the json configuration file. -/
def K_JSON_L_SUBJECTS : List Char := "subjects".data

/-- Key `session` of the json configuration file. -/
def K_JSON_SESSION : List Char := "session".data

/-- Key `data_to_bids` of the json configuration file. -/
def K_JSON_DATA_DICT : List Char := "data_to_bids".data

/-- Key `find_and_replace_subject` of the json configuration file. -/
def K_JSON_FIND_AND_REPLACE : List Char := "find_and_replace_subject".data

/-- Key `dcm2niix` of the json configuration file. -/
def K_DCM2NIIX_PATH : List Char := "dcm2niix".data

/-- Key `dcm2niix_options` of the json configuration file. -/
def K_DCM2NIIX_OPTS : List Char := "dcm2niix_options".data

/-- Key `find` of a find-and-replace rule. -/
def K_FIND : List Char := "find".data

/-- Key `replace` of a find-and-replace rule. -/
def K_REPLACE : List Char := "replace".data

/-- Key `date_from` of the json configuration file. -/
def K_JSON_DATE_FROM : List Char := "date_from".data

/-- Key `date_to` of the json configuration file. -/
def K_JSON_DATE_TO : List Char := "date_to".data

/-- Key `datasetName` of a `data_to_bids` entry. -/
def K_DS_NAME : List Char := "datasetName".data

/-- The mandatory configuration keys, in the order the source checks them. -/
def LIST_MANDATORY_KEYS_JSON : List (List Char) :=
  [K_JSON_STUDY_NAME, K_JSON_L_SUBJECTS, K_JSON_DATA_DICT]

/-- The authorized configuration keys, exactly as the source builds the
list (note: `K_JSON_FIND_AND_REPLACE` is not in it). -/
def LIST_AUTHORIZED_KEYS_JSON : List (List Char) :=
  LIST_MANDATORY_KEYS_JSON ++
    [K_DCM2NIIX_PATH, K_DCM2NIIX_OPTS, K_JSON_DATE_FROM, K_JSON_DATE_TO, K_JSON_SESSION]

/-- Shanoir file type `nifti`. -/
def SHANOIR_FILE_TYPE_NIFTI : List Char := "nifti".data

/-- Shanoir file type `dicom`. -/
def SHANOIR_FILE_TYPE_DICOM : List Char := "dicom".data

/-- Default Shanoir file type. -/
def DEFAULT_SHANOIR_FILE_TYPE : List Char := SHANOIR_FILE_TYPE_NIFTI

/-- Message printed by `check_date_format` when the date string does not
parse. -/
def incorrect_date_format_msg : List Char :=
  "Incorrect data format, should be YYYY-MM-DDTHH:MM:SSZ (for example: 2020-02-19T00:00:00Z)".data

/-- Model of `check_date_format`.  The generic date parser (`dateutil`) is
an external collaborator; it enters as the predicate `parses`.  A failed
parse only prints the message; the function never raises and never alters
the date value. -/
def check_date_format (parses : List Char → Bool) (date_to_format : List Char) :
    List (List Char) :=
  if parses date_to_format then [] else [incorrect_date_format_msg]

/-- Warning printed for a configuration key outside the authorized list. -/
def unknown_key_msg (key : List Char) : List Char :=
  "Unknown key \"".data ++ key ++ "\" for data dictionary".data

/-- Fatal message for a missing mandatory configuration key
(`sys.exit` argument). -/
def missing_key_msg (key : List Char) : List Char :=
  "Error, missing key \"".data ++ key ++ "\" in data dictionary".data

/-- The tuple returned by `read_json_config_file`. -/
structure LoadedConfig : Type where
  study_id : JVal
  subjects : JVal
  session_id : JVal
  data_dict : JVal
  list_fars : JVal
  dcm2niix_path : Option JVal
  dcm2niix_opts : Option JVal
  date_from : JVal
  date_to : JVal
deriving DecidableEq

/-- Handling of one optional date key.  Absent key: the default `"*"` is
kept.  Present but equal to the empty string: the source's branch assigns a
misspelled dead variable (`data_from`/`data_to`), so the default `"*"` is
kept as well.  Otherwise the raw value is kept and, for a string, checked
by `check_date_format` (whose failure is only a printed warning). -/
def dateField (parses : List Char → Bool) (v : Option JVal) : JVal × List (List Char) :=
  match v with
  | none => (JVal.jstr "*".data, [])
  | some v =>
    if v = JVal.jstr [] then (JVal.jstr "*".data, [])
    else (v, match v with | JVal.jstr s => check_date_format parses s | _ => [])

/-- Model of `read_json_config_file`: returns the warnings printed while
loading and either the fatal `sys.exit` message (for a missing mandatory
key) or the loaded configuration.  The configuration document is the parsed
json object (an association list with unique keys in document order). -/
def read_json_config_file (parses : List Char → Bool) (data : List (List Char × JVal)) :
    List (List Char) × Except (List Char) LoadedConfig :=
  let unknown_warns := (data.map Prod.fst).filterMap
    (fun key => if key ∈ LIST_AUTHORIZED_KEYS_JSON then none else some (unknown_key_msg key))
  match LIST_MANDATORY_KEYS_JSON.find? (fun key => (alookup data key).isNone) with
  | some key => (unknown_warns, Except.error (missing_key_msg key))
  | none =>
    let df := dateField parses (alookup data K_JSON_DATE_FROM)
    let dt := dateField parses (alookup data K_JSON_DATE_TO)
    (unknown_warns ++ df.2 ++ dt.2,
     Except.ok
       { study_id := (alookup data K_JSON_STUDY_NAME).getD JVal.jnull
         subjects := (alookup data K_JSON_L_SUBJECTS).getD JVal.jnull
         session_id := (alookup data K_JSON_SESSION).getD (JVal.jstr "*".data)
         data_dict := (alookup data K_JSON_DATA_DICT).getD JVal.jnull
         list_fars := (alookup data K_JSON_FIND_AND_REPLACE).getD (JVal.jlist [])
         dcm2niix_path := alookup data K_DCM2NIIX_PATH
         dcm2niix_opts := alookup data K_DCM2NIIX_OPTS
         date_from := df.1
         date_to := dt.1 })

/-! ## Query builder (`download_subject`, search text construction) -/

/-- Model of the `search_txt` expression of `download_subject`: the five
filters joined by `AND`, with every space turned into `?` in the study,
dataset and subject names and into `*` in the session (examination comment)
filter, and the date range written `[date_from TO date_to]`. -/
def build_search_txt (study ds subj sess date_from date_to : List Char) : List Char :=
  "studyName:".data ++ pyReplace " ".data "?".data study
    ++ " AND datasetName:".data ++ pyReplace " ".data "?".data ds
    ++ " AND subjectName:".data ++ pyReplace " ".data "?".data subj
    ++ " AND examinationComment:".data ++ pyReplace " ".data "*".data sess
    ++ " AND examinationDate:[".data ++ date_from ++ " TO ".data ++ date_to ++ "]".data

/-- String content of a json value (`""` for non-strings, which the claims
never exercise). -/
def asStr : JVal → List Char
  | JVal.jstr s => s
  | _ => []

/-- The subject list of a configuration, as strings. -/
def asStrList : JVal → List (List Char)
  | JVal.jlist l => l.map (fun v => match v with | JLeaf.lstr s => s | JLeaf.lobj _ => [])
  | _ => []

/-- The `data_to_bids` entries of a configuration, as flat json objects. -/
def asObjList : JVal → List (List (List Char × List Char))
  | JVal.jlist l => l.filterMap (fun v => match v with | JLeaf.lobj o => some o | _ => none)
  | _ => []

/-- The search queries the whole run would build: none at all when the
configuration loader exits, otherwise one query per subject and per
`data_to_bids` entry, in loop order.  This is the network-facing boundary:
a query string is built only to be handed to the search collaborator. -/
def mainQueries (parses : List Char → Bool) (data : List (List Char × JVal)) :
    List (List Char) :=
  match (read_json_config_file parses data).2 with
  | Except.error _ => []
  | Except.ok cfg =>
    (asStrList cfg.subjects).flatMap (fun subject_to_search =>
      (asObjList cfg.data_dict).map (fun seqEntry =>
        build_search_txt (asStr cfg.study_id)
          ((alookup seqEntry K_DS_NAME).getD [])
          subject_to_search (asStr cfg.session_id)
          (asStr cfg.date_from) (asStr cfg.date_to)))

/-! ## Subject-name normalization (find and replace) -/

/-- The loop `for far in self.list_fars: su_id = su_id.replace(far[K_FIND],
far[K_REPLACE])` of `download_subject`: each rule is applied in declaration
order as a plain (non-regex) Python string replacement. -/
def apply_find_and_replace (list_fars : List (List Char × List Char)) (su_id : List Char) :
    List Char :=
  list_fars.foldl (fun s far => pyReplace far.1 far.2 s) su_id

/-! ## Heuristic emitter (`generate_heuristic_file` and the generated code) -/

/-- The run-index placeholder `run-{item:02d}_` embedded in every generated
filename template (braces written with escapes). -/
def runPlaceholder : List Char := "run-\x7bitem:02d\x7d_".data

/-- One entry of the `bids_mapping` list (`bids_seq_mapping` dict of
`download_subject`). -/
structure BidsEntry : Type where
  datasetName : List Char
  bidsDir : List Char
  bidsName : List Char
  bids_subject_id : List Char
  bids_session_id : Option (List Char)
deriving DecidableEq

/-- A heudiconv key: the tuple `(template, outtype, annotation_classes)`
returned by `create_key`; the third component is always `None` and is
dropped. -/
structure HKey : Type where
  template : List Char
  outtype : List (List Char)
deriving DecidableEq

/-- The `outtype` literal selected by `generate_heuristic_file` from its
`output_type` argument: `dicom` alone, `nii.gz` alone, or both for any
other value (including `both`). -/
def heuristic_outtype (output_type : List Char) : List (List Char) :=
  if output_type = "dicom".data then ["dicom".data]
  else if output_type = "nifti".data then ["nii.gz".data]
  else ["dicom".data, "nii.gz".data]

/-- First fixed piece of a generated filename template (the
subject-session directory token and its path separator). -/
def TDIR : List Char := "\x7bbids_subject_session_dir\x7d/".data

/-- Second fixed piece of a generated filename template (the path separator
and the subject-session prefix token). -/
def TPREF : List Char := "/\x7bbids_subject_session_prefix\x7d_".data

/-- Modelled from the spec: `create_key` of heudiconv's reproin heuristic is
an external collaborator producing, per the spec, a
"filename-template-with-run-placeholder" key.  It joins
`{bids_subject_session_dir}`, the subdirectory and
`{bids_subject_session_prefix}_` followed by the file suffix, and pairs the
template with the output-extension set. -/
def create_key (subdir file_suffix : List Char) (outtype : List (List Char)) : HKey :=
  { template := TDIR ++ subdir ++ TPREF ++ file_suffix
    outtype := outtype }

/-- The generated `create_bids_key`: the file suffix is the run-index
placeholder followed by the entry's BIDS name. -/
def create_bids_key (outtype : List (List Char)) (dataset : BidsEntry) : HKey :=
  create_key dataset.bidsDir (runPlaceholder ++ dataset.bidsName) outtype

/-- The generated `get_dataset_to_key_mapping`: a dict from each entry's
`datasetName` to its key (later entries with the same dataset name
overwrite earlier ones, as Python dict assignment does). -/
def get_dataset_to_key_mapping (outtype : List (List Char)) (shanoir2bids : List BidsEntry) :
    List (List Char × HKey) :=
  shanoir2bids.foldl (fun m dataset => dictInsert m dataset.datasetName
    (create_bids_key outtype dataset)) []

/-- The generated `infotodict` grouping loop: every seqinfo item (a pair of
series description and series id) whose description is a known dataset name
is appended under that dataset's key; unmatched items are skipped. -/
def infotodict (dataset_to_key : List (List Char × HKey))
    (seqinfo : List (List Char × Nat)) : List (HKey × List Nat) :=
  seqinfo.foldl (fun info seq =>
    match alookup dataset_to_key seq.1 with
    | some key => insertAppend info key seq.2
    | none => info) []

/-- The rewrite `simplify_runs` applies to a single-run key: delete the
run-index placeholder occurrences from the filename template
(`key[0].replace('run-...', '')`), keeping the outtype. -/
def collapse_run_key (key : HKey) : HKey :=
  { template := pyReplace runPlaceholder [] key.template, outtype := key.outtype }

/-- The generated `simplify_runs`: rebuild the info dict, collapsing the
key of every group holding exactly one series and keeping every other group
unchanged. -/
def simplify_runs (info : List (HKey × List Nat)) : List (HKey × List Nat) :=
  info.foldl (fun info_final kl =>
    if kl.2.length = 1 then dictInsert info_final (collapse_run_key kl.1) kl.2
    else dictInsert info_final kl.1 kl.2) []

/-- The series ids grouped under key `k` by `infotodict`, in first-seen
(seqinfo) order. -/
def seq_group (dataset_to_key : List (List Char × HKey))
    (seqinfo : List (List Char × Nat)) (k : HKey) : List Nat :=
  (seqinfo.filter (fun seq => decide (alookup dataset_to_key seq.1 = some k))).map Prod.snd

/-- Modelled from the spec: heudiconv numbers the members of one group by
their position in the accumulated series list, so the run indices of a
group are 1, 2, ... in first-seen order. -/
def runIndices {α : Type} (assigned : List α) : List Nat :=
  (List.range assigned.length).map (fun i => i + 1)

/-! ## Download orchestration (`DownloadShanoirDatasetToBIDS`) -/

/-- The claim-relevant state of class `DownloadShanoirDatasetToBIDS`: the
file type requested from Shanoir (`-f` flag of the search collaborator) and
the output file type the heuristic emitter reads.  `__init__` sets both to
the default. -/
structure DownloadShanoirDatasetToBIDS : Type where
  shanoir_file_type : List Char
  output_file_type : List Char
deriving DecidableEq

/-- The state after `__init__`. -/
def init_download_state : DownloadShanoirDatasetToBIDS :=
  { shanoir_file_type := DEFAULT_SHANOIR_FILE_TYPE
    output_file_type := DEFAULT_SHANOIR_FILE_TYPE }

/-- Model of method `set_output_file_type`, verbatim from the source: for
`dicom`, `nifti` or `both` it assigns `self.shanoir_file_type` (not
`self.output_file_type`); anything else terminates the process via
`sys.exit`. -/
def set_output_file_type (self : DownloadShanoirDatasetToBIDS) (output_file_type : List Char) :
    Except (List Char) DownloadShanoirDatasetToBIDS :=
  if output_file_type = SHANOIR_FILE_TYPE_DICOM ∨ output_file_type = SHANOIR_FILE_TYPE_NIFTI
      ∨ output_file_type = "both".data then
    Except.ok { self with shanoir_file_type := output_file_type }
  else
    Except.error ("Unknown shanoir file type ".data ++ output_file_type)

/-- The outtype set embedded in the heuristic file for a run that selected
`outformat` on the command line: `set_output_file_type` runs on the freshly
initialized instance, then `generate_heuristic_file` reads
`self.output_file_type`. -/
def heuristic_outtype_after_set (outformat : List Char) :
    Except (List Char) (List (List Char)) :=
  (set_output_file_type init_download_state outformat).map
    (fun st => heuristic_outtype st.output_file_type)

/-! ## Per-subject download loop (`download_subject`) -/

/-- Python values, as far as the status-reporting expression concatenates
them. -/
inductive PyVal : Type where
  | pstr : List Char → PyVal
  | pint : Nat → PyVal
deriving DecidableEq

/-- Python `+` on a string left operand: concatenation for a string right
operand, `TypeError` for an integer right operand. -/
def pyAdd : PyVal → PyVal → Except (List Char) PyVal
  | PyVal.pstr a, PyVal.pstr b => Except.ok (PyVal.pstr (a ++ b))
  | PyVal.pstr _, PyVal.pint _ =>
    Except.error "TypeError: can only concatenate str (not \"int\") to str".data
  | PyVal.pint _, _ => Except.error "TypeError: unsupported operand".data

/-- The `banner_msg` framing: a line of `*` sized to the message, the
message between `*` markers, and the closing line (Python `print` joins its
arguments with single spaces). -/
def banner_msg (msg : List Char) : List Char :=
  List.replicate (msg.length + 6) '*' ++ "\n*  ".data ++ msg ++ "  *\n".data
    ++ List.replicate (msg.length + 6) '*'

/-- One item of a 200 search response, with the fields the loop body logs
and uses (`subjectName` feeds the find-and-replace normalization). -/
structure RespItem : Type where
  id : List Char
  datasetId : List Char
  studyName : List Char
  subjectName : List Char
  examinationComment : List Char
  datasetName : List Char
  examinationDate : List Char
deriving DecidableEq

/-- A response of the search collaborator for one sequence: its status code
and (for a 200) its item list. -/
structure Resp : Type where
  status_code : Nat
  content : List RespItem
deriving DecidableEq

/-- The run-log lines written for one downloaded item (the
archive-extraction line, whose text depends on filesystem paths of the
external collaborators, is not modelled). -/
def item_log_lines (item : RespItem) : List (List Char) :=
  ["- datasetId = ".data ++ item.datasetId ++ "\n".data,
   "  -- studyName: ".data ++ item.studyName ++ "\n".data,
   "  -- subjectName: ".data ++ item.subjectName ++ "\n".data,
   "  -- session: ".data ++ item.examinationComment ++ "\n".data,
   "  -- datasetName: ".data ++ item.datasetName ++ "\n".data,
   "  -- examinationDate: ".data ++ item.examinationDate ++ "\n".data,
   "  >> Downloading archive OK\n".data]

/-- The warning written when a 200 response carries zero items. -/
def zero_result_warn (search_txt : List Char) : List Char :=
  "WARNING ! The Shanoir request returned 0 result. Make sure the following search text returns \n        a result on the website.\n        Search Text : \"".data
    ++ search_txt ++ "\" \n".data

/-- The run-log line the `else` status branch would write (its `fp.write`
wraps the status in `str`, unlike the `banner_msg` argument evaluated
before it). -/
def status_log_line (status : Nat) : List Char :=
  "  >> ERROR : Returned by the request: status of the response = ".data
    ++ (Nat.repr status).data ++ "\n".data

/-- One iteration of the sequence loop of `download_subject`, from the
response on.  State: the current value of the Python local `subject_id`
(`none` while still unassigned) and the run-log lines written so far.
A 200 response processes each item in order: `subject_id` is assigned the
normalized subject name and the item is logged.  A 204 response logs
"No file found".  Any other status evaluates
`"ERROR : Returned by the request: status of the response = " +
response.status_code` as the `banner_msg` argument; that Python `+` of a
`str` and an `int` raises `TypeError`, aborting the subject before
anything is logged. -/
def process_sequence (list_fars : List (List Char × List Char)) (search_txt : List Char)
    (response : Resp) (st : Option (List Char) × List (List Char)) :
    Except (List Char) (Option (List Char) × List (List Char)) :=
  if response.status_code = 200 then
    if response.content = [] then
      Except.ok (st.1, st.2 ++ [zero_result_warn search_txt])
    else
      Except.ok (response.content.foldl
        (fun st item =>
          (some (apply_find_and_replace list_fars item.subjectName),
           st.2 ++ item_log_lines item))
        st)
  else if response.status_code = 204 then
    Except.ok (st.1, st.2 ++ ["  >> ERROR : No file found!\n".data])
  else
    match pyAdd (PyVal.pstr "ERROR : Returned by the request: status of the response = ".data)
        (PyVal.pint response.status_code) with
    | Except.error e => Except.error e
    | Except.ok _ => Except.ok (st.1, st.2 ++ [status_log_line response.status_code])

/-- The whole sequence loop of `download_subject` for one subject: one
`(search_txt, response)` pair per configured sequence, threaded through
`process_sequence`.  `subject_id` starts unassigned and the log starts
empty. -/
def download_subject_loop (list_fars : List (List Char × List Char))
    (steps : List (List Char × Resp)) :
    Except (List Char) (Option (List Char) × List (List Char)) :=
  steps.foldlM (fun st sr => process_sequence list_fars sr.1 sr.2 st) (none, [])

/-- The items actually processed by the loop, in processing order: the
concatenated contents of the 200 responses. -/
def processedItems (steps : List (List Char × Resp)) : List RespItem :=
  (steps.filter (fun sr => decide (sr.2.status_code = 200))).flatMap (fun sr => sr.2.content)

/-- The `subjs` list handed to the heudiconv `workflow` call
(`"subjs": [subject_id]`).  Reading `subject_id` when no item was ever
processed raises `NameError`; a `TypeError` from a bad status has already
aborted the subject before the call site. -/
def workflow_subjs (list_fars : List (List Char × List Char))
    (steps : List (List Char × Resp)) : Except (List Char) (List (List Char)) :=
  match download_subject_loop list_fars steps with
  | Except.error e => Except.error e
  | Except.ok (none, _) => Except.error "NameError: name 'subject_id' is not defined".data
  | Except.ok (some subject_id, _) => Except.ok [subject_id]

/-! ## Theorems: the replacement engine -/

theorem replGo_fuel (p r : List Char) : ∀ (f : Nat) (g : Nat) (s : List Char), s.length ≤ f →
    s.length ≤ g → replGo p r f s = replGo p r g s := by
  intro f
  induction f with
  | zero =>
    intro g s hf _
    have hs : s = [] := List.eq_nil_of_length_eq_zero (Nat.le_zero.mp hf)
    subst hs
    cases g <;> rfl
  | succ f ih =>
    intro g s hf hg
    match s with
    | [] => cases g <;> rfl
    | c :: t =>
      match g with
      | g + 1 =>
        simp only [replGo]
        simp only [List.length_cons] at hf hg
        have hd := List.length_drop (p.length - 1) t
        by_cases h : p <+: (c :: t)
        · rw [if_pos h, if_pos h, ih g (t.drop (p.length - 1)) (by omega) (by omega)]
        · rw [if_neg h, if_neg h, ih g t (by omega) (by omega)]

theorem replNE_nil (p r : List Char) : replNE p r [] = [] := rfl

theorem replNE_cons (p r : List Char) (c : Char) (t : List Char) :
    replNE p r (c :: t) =
      if p <+: (c :: t) then r ++ replNE p r (t.drop (p.length - 1))
      else c :: replNE p r t := by
  show replGo p r (c :: t).length (c :: t) = _
  simp only [List.length_cons, replGo]
  have hd := List.length_drop (p.length - 1) t
  by_cases h : p <+: (c :: t)
  · rw [if_pos h, if_pos h,
      replGo_fuel p r t.length (t.drop (p.length - 1)).length (t.drop (p.length - 1))
        (by omega) (le_refl _)]
    rfl
  · rw [if_neg h, if_neg h]
    rfl

theorem pyReplace_of_ne_nil (p r s : List Char) (hp : p ≠ []) :
    pyReplace p r s = replNE p r s := by
  simp [pyReplace, hp]

theorem pyReplace_single_char (a b : Char) (s : List Char) :
    pyReplace [a] [b] s = s.map (fun c => if c = a then b else c) := by
  rw [pyReplace_of_ne_nil _ _ _ (by simp)]
  induction s with
  | nil => rfl
  | cons c t ih =>
    rw [replNE_cons]
    by_cases hac : a = c
    · subst hac
      rw [if_pos ⟨t, rfl⟩]
      simp only [List.length_cons, List.length_nil, Nat.zero_add, Nat.sub_self, List.drop_zero]
      simp [ih]
    · rw [if_neg (by
        intro hpre
        rcases hpre with ⟨u, hu⟩
        simp only [List.cons_append, List.nil_append, List.cons.injEq] at hu
        exact hac hu.1)]
      simp only [List.map_cons, ih, List.cons.injEq, and_true]
      rw [if_neg (fun hco => hac hco.symm)]

theorem replNE_skip (p r : List Char) (a t : List Char)
    (h : ∀ i, i < a.length → ¬ p <+: (a.drop i ++ t)) :
    replNE p r (a ++ t) = a ++ replNE p r t := by
  induction a with
  | nil => simp
  | cons c a' ih =>
    have h0 : ¬ p <+: (c :: (a' ++ t)) := by
      have := h 0 (by simp)
      simpa using this
    have h' : ∀ i, i < a'.length → ¬ p <+: (a'.drop i ++ t) := by
      intro i hi
      have := h (i + 1) (by simp; omega)
      simpa using this
    rw [List.cons_append, replNE_cons, if_neg h0, ih h']
    simp

theorem replNE_no_match (p r s : List Char) (h : ¬ p <:+: s) : replNE p r s = s := by
  induction s with
  | nil => rfl
  | cons c t ih =>
    rw [replNE_cons, if_neg, ih]
    · intro hin
      apply h
      rcases hin with ⟨x, y, hxy⟩
      exact ⟨c :: x, y, by simp [hxy]⟩
    · intro hpre
      apply h
      rcases hpre with ⟨u, hu⟩
      exact ⟨[], u, by simp [hu]⟩

theorem not_infix_of_no_prefix_drop (p s : List Char)
    (h : ∀ i, ¬ p <+: s.drop i) : ¬ p <:+: s := by
  intro hin
  rcases hin with ⟨x, y, hxy⟩
  apply h x.length
  have : s.drop x.length = p ++ y := by
    rw [← hxy, List.append_assoc, List.drop_left]
  rw [this]
  exact ⟨y, rfl⟩

theorem not_prefix_append_of_take (p x y : List Char)
    (h : ¬ (x.take p.length <+: p)) : ¬ p <+: (x ++ y) := by
  intro hpre
  rcases hpre with ⟨t, ht⟩
  apply h
  have htake := congrArg (List.take p.length) ht
  rw [List.take_left, List.take_append_eq_append_take] at htake
  exact ⟨_, htake.symm⟩

/-! ## Theorems: the run-index placeholder inside generated templates -/

theorem no_placeholder_in_bracefree (u : List Char) (h : '\x7b' ∉ u) :
    ¬ runPlaceholder <+: u := by
  intro hp
  exact h (hp.subset (by decide : '\x7b' ∈ runPlaceholder))

theorem no_infix_placeholder_bracefree (u : List Char) (h : '\x7b' ∉ u) :
    ¬ runPlaceholder <:+: u := by
  intro hp
  exact h (hp.subset (by decide : '\x7b' ∈ runPlaceholder))

theorem no_placeholder_bracefree_slash (u w : List Char) (h : '\x7b' ∉ u) :
    ¬ runPlaceholder <+: (u ++ '/' :: w) := by
  intro hp
  rcases hp with ⟨t, ht⟩
  have hP15 : runPlaceholder.length = 15 := by decide
  by_cases h15 : 15 ≤ u.length
  · have htake := congrArg (List.take runPlaceholder.length) ht
    rw [List.take_left, List.take_append_eq_append_take, hP15,
      Nat.sub_eq_zero_of_le h15] at htake
    simp only [List.take_zero, List.append_nil] at htake
    apply h
    have hmem : '\x7b' ∈ List.take 15 u := by
      rw [← htake]
      decide
    exact List.take_subset 15 u hmem
  · push_neg at h15
    have hdrop := congrArg (List.drop u.length) ht
    rw [List.drop_append_eq_append_drop, List.drop_append_eq_append_drop, hP15,
      Nat.sub_eq_zero_of_le (Nat.le_of_lt h15), List.drop_length, Nat.sub_self] at hdrop
    simp only [List.drop_zero, List.nil_append] at hdrop
    obtain ⟨c, cs, hc⟩ := List.exists_cons_of_ne_nil
      (show runPlaceholder.drop u.length ≠ [] by
        intro hnil
        have := congrArg List.length hnil
        simp only [List.length_drop, hP15, List.length_nil] at this
        omega)
    rw [hc] at hdrop
    simp only [List.cons_append, List.cons.injEq] at hdrop
    have hmem : ('/' : Char) ∈ runPlaceholder := by
      have hcmem : c ∈ runPlaceholder.drop u.length := by
        rw [hc]
        exact List.mem_cons_self _ _
      have := List.mem_of_mem_drop hcmem
      rwa [hdrop.1] at this
    revert hmem
    decide

theorem tdir_suffix_safe : ∀ i, i < TDIR.length →
    ¬ ((TDIR.drop i).take runPlaceholder.length <+: runPlaceholder) := by decide

theorem tpref_suffix_safe : ∀ i, i < TPREF.length →
    ¬ ((TPREF.drop i).take runPlaceholder.length <+: runPlaceholder) := by decide

theorem template_head_safe (d : List Char) (hd : '\x7b' ∉ d) (X : List Char) :
    ∀ i, i < (TDIR ++ d ++ TPREF).length →
      ¬ runPlaceholder <+: ((TDIR ++ d ++ TPREF).drop i ++ X) := by
  intro i hi
  simp only [List.length_append] at hi
  rw [List.append_assoc, List.drop_append_eq_append_drop, List.drop_append_eq_append_drop]
  by_cases h1 : i < TDIR.length
  · rw [Nat.sub_eq_zero_of_le (Nat.le_of_lt h1)]
    simp only [List.drop_zero, Nat.zero_sub, List.append_assoc]
    exact not_prefix_append_of_take _ _ _ (tdir_suffix_safe i h1)
  · push_neg at h1
    rw [List.drop_eq_nil_of_le h1, List.nil_append]
    by_cases h2 : i - TDIR.length < d.length
    · rw [Nat.sub_eq_zero_of_le (Nat.le_of_lt h2)]
      simp only [List.drop_zero, List.append_assoc]
      rw [show TPREF = '/' :: "\x7bbids_subject_session_prefix\x7d_".data from by decide]
      simp only [List.cons_append]
      exact no_placeholder_bracefree_slash _ _
        (fun hm => hd (List.mem_of_mem_drop hm))
    · push_neg at h2
      rw [List.drop_eq_nil_of_le h2, List.nil_append]
      apply not_prefix_append_of_take
      apply tpref_suffix_safe
      have h27 : TDIR.length = 27 := by decide
      have h31 : TPREF.length = 31 := by decide
      omega

theorem replNE_head_match (n : List Char) :
    replNE runPlaceholder [] (runPlaceholder ++ n) = replNE runPlaceholder [] n := by
  have hsplit : runPlaceholder ++ n = 'r' :: ("un-\x7bitem:02d\x7d_".data ++ n) := by
    rw [show runPlaceholder = 'r' :: "un-\x7bitem:02d\x7d_".data from by decide]
    simp
  rw [hsplit, replNE_cons, if_pos]
  · rw [show runPlaceholder.length - 1 = 14 from by decide,
      List.drop_left' (show ("un-\x7bitem:02d\x7d_".data).length = 14 from by decide)]
    simp
  · refine ⟨n, ?_⟩
    rw [← hsplit]

theorem strip_create_template (d n : List Char) (hd : '\x7b' ∉ d) (hn : '\x7b' ∉ n) :
    pyReplace runPlaceholder [] (TDIR ++ d ++ TPREF ++ (runPlaceholder ++ n))
      = TDIR ++ d ++ TPREF ++ n := by
  rw [pyReplace_of_ne_nil _ _ _ (by decide),
    replNE_skip runPlaceholder [] (TDIR ++ d ++ TPREF) (runPlaceholder ++ n)
      (template_head_safe d hd (runPlaceholder ++ n)),
    replNE_head_match,
    replNE_no_match _ _ n (no_infix_placeholder_bracefree n hn)]

theorem no_placeholder_in_stripped (d n : List Char) (hd : '\x7b' ∉ d) (hn : '\x7b' ∉ n) :
    ¬ runPlaceholder <:+: (TDIR ++ d ++ TPREF ++ n) := by
  apply not_infix_of_no_prefix_drop
  intro i
  by_cases hi : i < (TDIR ++ d ++ TPREF).length
  · have hrw : (TDIR ++ d ++ TPREF ++ n).drop i = (TDIR ++ d ++ TPREF).drop i ++ n := by
      rw [List.drop_append_eq_append_drop, Nat.sub_eq_zero_of_le (Nat.le_of_lt hi),
        List.drop_zero]
    rw [hrw]
    exact template_head_safe d hd n i hi
  · push_neg at hi
    have hrw : (TDIR ++ d ++ TPREF ++ n).drop i
        = n.drop (i - (TDIR ++ d ++ TPREF).length) := by
      rw [List.drop_append_eq_append_drop, List.drop_eq_nil_of_le hi, List.nil_append]
    rw [hrw]
    exact no_placeholder_in_bracefree _ (fun hm => hn (List.mem_of_mem_drop hm))

theorem placeholder_in_template (d s : List Char) :
    runPlaceholder <:+: (TDIR ++ d ++ TPREF ++ (runPlaceholder ++ s)) := by
  refine ⟨TDIR ++ d ++ TPREF, s, ?_⟩
  simp [List.append_assoc]

theorem findIdx_append_of_none (q : Char → Bool) (d t : List Char)
    (h : ∀ c ∈ d, q c = false) :
    List.findIdx q (d ++ t) = d.length + List.findIdx q t := by
  induction d with
  | nil => simp
  | cons c d' ih =>
    simp only [List.cons_append, List.findIdx_cons, h c (List.mem_cons_self _ _), cond_false]
    rw [ih (fun c hc => h c (List.mem_cons_of_mem _ hc))]
    simp only [List.length_cons]
    omega

theorem findIdx_lbrace_tpref (n : List Char) :
    List.findIdx (fun c => c = '\x7b') (TPREF ++ n) = 1 := by
  rw [show TPREF = '/' :: '\x7b' :: "bids_subject_session_prefix\x7d_".data from by decide]
  simp [List.findIdx_cons]

theorem stripped_template_inj (d n d' n' : List Char) (hd : '\x7b' ∉ d) (hd' : '\x7b' ∉ d')
    (heq : TDIR ++ d ++ TPREF ++ n = TDIR ++ d' ++ TPREF ++ n') : d = d' ∧ n = n' := by
  have h1 : d ++ (TPREF ++ n) = d' ++ (TPREF ++ n') := by
    have h0 := heq
    simp only [List.append_assoc] at h0
    exact List.append_cancel_left h0
  have hq : ∀ (u : List Char), '\x7b' ∉ u → ∀ c ∈ u, (fun c => decide (c = '\x7b')) c = false := by
    intro u hu c hc
    simp only [decide_eq_false_iff_not]
    intro he
    exact hu (he ▸ hc)
  have hlen : d.length = d'.length := by
    have e1 := congrArg (List.findIdx (fun c => c = '\x7b')) h1
    rw [findIdx_append_of_none _ d _ (hq d hd), findIdx_append_of_none _ d' _ (hq d' hd'),
      findIdx_lbrace_tpref, findIdx_lbrace_tpref] at e1
    omega
  obtain ⟨hdd, htt⟩ := List.append_inj h1 hlen
  exact ⟨hdd, List.append_cancel_left htt⟩

/-! ## Theorems: dict operations -/

theorem alookup_dictInsert {α β : Type} [DecidableEq α] (m : List (α × β)) (k : α) (v : β)
    (k₂ : α) :
    alookup (dictInsert m k v) k₂ = if k₂ = k then some v else alookup m k₂ := by
  induction m with
  | nil =>
    by_cases h2 : k₂ = k
    · simp [dictInsert, alookup, h2]
    · simp [dictInsert, alookup, h2]
  | cons p m ih =>
    obtain ⟨k', w⟩ := p
    by_cases hk : k = k'
    · subst hk
      simp only [dictInsert, if_pos rfl, alookup]
      by_cases h2 : k₂ = k
      · simp [h2]
      · simp [h2]
    · simp only [dictInsert, if_neg hk, alookup]
      by_cases h2 : k₂ = k'
      · subst h2
        rw [if_pos rfl, if_neg (fun h => hk h.symm), if_pos rfl]
      · rw [if_neg h2, ih]
        by_cases h3 : k₂ = k
        · rw [if_pos h3, if_pos h3]
        · rw [if_neg h3, if_neg h3, if_neg h2]

theorem alookup_insertAppend {α β : Type} [DecidableEq α] (m : List (α × List β)) (k : α)
    (v : β) (k₂ : α) :
    alookup (insertAppend m k v) k₂ =
      if k₂ = k then some ((alookup m k).getD [] ++ [v]) else alookup m k₂ := by
  induction m with
  | nil =>
    by_cases h2 : k₂ = k
    · simp [insertAppend, alookup, h2]
    · simp [insertAppend, alookup, h2]
  | cons p m ih =>
    obtain ⟨k', l⟩ := p
    by_cases hk : k = k'
    · subst hk
      simp only [insertAppend, if_pos rfl, alookup]
      by_cases h2 : k₂ = k
      · simp [h2]
      · simp [h2]
    · simp only [insertAppend, if_neg hk, alookup]
      by_cases h2 : k₂ = k'
      · subst h2
        rw [if_pos rfl, if_neg (fun h => hk h.symm), if_pos rfl]
      · rw [if_neg h2, ih]
        by_cases h3 : k₂ = k
        · subst h3
          rw [if_pos rfl, if_pos rfl]
        · rw [if_neg h3, if_neg h3, if_neg h2]

theorem mem_of_alookup {α β : Type} [DecidableEq α] (m : List (α × β)) (k : α) (v : β)
    (h : alookup m k = some v) : (k, v) ∈ m := by
  induction m with
  | nil => simp [alookup] at h
  | cons p m ih =>
    obtain ⟨k', w⟩ := p
    by_cases h2 : k = k'
    · subst h2
      have hx : alookup ((k, w) :: m) k = some w := by simp [alookup]
      rw [hx] at h
      obtain rfl := Option.some.inj h
      exact List.mem_cons_self _ _
    · simp only [alookup, if_neg h2] at h
      exact List.mem_cons_of_mem _ (ih h)

theorem alookup_eq_none_iff {α β : Type} [DecidableEq α] (m : List (α × β)) (k : α) :
    alookup m k = none ↔ k ∉ m.map Prod.fst := by
  induction m with
  | nil => simp [alookup]
  | cons p m ih =>
    obtain ⟨k', w⟩ := p
    by_cases h2 : k = k'
    · subst h2
      simp [alookup]
    · simp [alookup, if_neg h2, h2, ih]

theorem keys_insertAppend_of_some {α β : Type} [DecidableEq α] (m : List (α × List β))
    (k : α) (v : β) (h : (alookup m k).isSome) :
    (insertAppend m k v).map Prod.fst = m.map Prod.fst := by
  induction m with
  | nil => simp [alookup] at h
  | cons p m ih =>
    obtain ⟨k', l⟩ := p
    by_cases h2 : k = k'
    · subst h2
      simp [insertAppend]
    · simp only [alookup, if_neg h2] at h
      simp [insertAppend, if_neg h2, ih h]

theorem keys_insertAppend_of_none {α β : Type} [DecidableEq α] (m : List (α × List β))
    (k : α) (v : β) (h : alookup m k = none) :
    (insertAppend m k v).map Prod.fst = m.map Prod.fst ++ [k] := by
  induction m with
  | nil => simp [insertAppend]
  | cons p m ih =>
    obtain ⟨k', l⟩ := p
    by_cases h2 : k = k'
    · subst h2
      simp [alookup] at h
    · simp only [alookup, if_neg h2] at h
      simp [insertAppend, if_neg h2, ih h]

theorem mem_insertAppend {α β : Type} [DecidableEq α] (m : List (α × List β)) (k : α)
    (v : β) (p : α × List β) (h : p ∈ insertAppend m k v) : p ∈ m ∨ p.1 = k := by
  induction m with
  | nil =>
    simp only [insertAppend, List.mem_singleton] at h
    subst h
    exact Or.inr rfl
  | cons q m ih =>
    obtain ⟨k', l⟩ := q
    by_cases h2 : k = k'
    · subst h2
      have hx : insertAppend ((k, l) :: m) k v = (k, l ++ [v]) :: m := by
        simp [insertAppend]
      rw [hx] at h
      rcases List.mem_cons.mp h with h1 | h1
      · subst h1
        exact Or.inr rfl
      · exact Or.inl (List.mem_cons_of_mem _ h1)
    · have hx : insertAppend ((k', l) :: m) k v = (k', l) :: insertAppend m k v := by
        simp [insertAppend, h2]
      rw [hx] at h
      rcases List.mem_cons.mp h with h1 | h1
      · subst h1
        exact Or.inl (List.mem_cons_self _ _)
      · rcases ih h1 with h3 | h3
        · exact Or.inl (List.mem_cons_of_mem _ h3)
        · exact Or.inr h3

theorem dictInsert_of_fresh {α β : Type} [DecidableEq α] (m : List (α × β)) (k : α) (v : β)
    (h : alookup m k = none) : dictInsert m k v = m ++ [(k, v)] := by
  induction m with
  | nil => simp [dictInsert]
  | cons p m ih =>
    obtain ⟨k', w⟩ := p
    by_cases h2 : k = k'
    · subst h2
      simp [alookup] at h
    · simp only [alookup, if_neg h2] at h
      simp [dictInsert, if_neg h2, ih h]

/-! ## Theorems: grouping behaviour of the generated heuristic -/

theorem seq_group_cons_pos (d2k : List (List Char × HKey)) (d : List Char) (v : Nat)
    (rest : List (List Char × Nat)) (k : HKey) (hd : alookup d2k d = some k) :
    seq_group d2k ((d, v) :: rest) k = v :: seq_group d2k rest k := by
  simp [seq_group, List.filter_cons, hd]

theorem seq_group_cons_neg (d2k : List (List Char × HKey)) (d : List Char) (v : Nat)
    (rest : List (List Char × Nat)) (k : HKey) (hd : ¬ alookup d2k d = some k) :
    seq_group d2k ((d, v) :: rest) k = seq_group d2k rest k := by
  simp [seq_group, List.filter_cons, hd]

theorem infotodict_loop_alookup (d2k : List (List Char × HKey))
    (seqinfo : List (List Char × Nat)) (m : List (HKey × List Nat)) (k : HKey) :
    alookup (seqinfo.foldl (fun info seq =>
        match alookup d2k seq.1 with
        | some key => insertAppend info key seq.2
        | none => info) m) k =
      match alookup m k with
      | some l => some (l ++ seq_group d2k seqinfo k)
      | none =>
        if seq_group d2k seqinfo k = [] then none else some (seq_group d2k seqinfo k) := by
  induction seqinfo generalizing m with
  | nil =>
    simp only [List.foldl_nil, seq_group, List.filter_nil, List.map_nil]
    match h : alookup m k with
    | some l => simp
    | none => simp
  | cons seq rest ih =>
    obtain ⟨d, v⟩ := seq
    simp only [List.foldl_cons]
    match hd : alookup d2k d with
    | none =>
      have hne : ¬ alookup d2k d = some k := by simp [hd]
      rw [seq_group_cons_neg d2k d v rest k hne]
      exact ih m
    | some key =>
      by_cases hkey : key = k
      · subst hkey
        rw [seq_group_cons_pos d2k d v rest key hd, ih (insertAppend m key v),
          alookup_insertAppend, if_pos rfl]
        match hm : alookup m key with
        | some l => simp
        | none => simp
      · have hne : ¬ alookup d2k d = some k := by simp [hd, hkey]
        rw [seq_group_cons_neg d2k d v rest k hne, ih (insertAppend m key v),
          alookup_insertAppend, if_neg (fun he => hkey he.symm)]

theorem infotodict_alookup (d2k : List (List Char × HKey))
    (seqinfo : List (List Char × Nat)) (k : HKey) :
    alookup (infotodict d2k seqinfo) k =
      if seq_group d2k seqinfo k = [] then none else some (seq_group d2k seqinfo k) := by
  have h := infotodict_loop_alookup d2k seqinfo [] k
  simpa [infotodict, alookup] using h

theorem infotodict_keys_nodup (d2k : List (List Char × HKey))
    (seqinfo : List (List Char × Nat)) :
    ((infotodict d2k seqinfo).map Prod.fst).Nodup := by
  suffices hgen : ∀ m : List (HKey × List Nat), (m.map Prod.fst).Nodup →
      ((seqinfo.foldl (fun info seq =>
        match alookup d2k seq.1 with
        | some key => insertAppend info key seq.2
        | none => info) m).map Prod.fst).Nodup by
    exact hgen [] (by simp)
  induction seqinfo with
  | nil => intro m hm; simpa using hm
  | cons seq rest ih =>
    intro m hm
    obtain ⟨d, v⟩ := seq
    simp only [List.foldl_cons]
    cases hd : alookup d2k d with
    | none => exact ih m hm
    | some key =>
      apply ih
      cases hk : alookup m key with
      | some l =>
        rw [keys_insertAppend_of_some m key v (by simp [hk])]
        exact hm
      | none =>
        rw [keys_insertAppend_of_none m key v hk]
        rw [List.nodup_append]
        refine ⟨hm, List.nodup_singleton _, ?_⟩
        intro x hx hx2
        rw [List.mem_singleton] at hx2
        exact ((alookup_eq_none_iff m key).mp hk) (hx2 ▸ hx)

theorem infotodict_key_origin (d2k : List (List Char × HKey))
    (seqinfo : List (List Char × Nat)) (p : HKey × List Nat)
    (h : p ∈ infotodict d2k seqinfo) : ∃ ds, alookup d2k ds = some p.1 := by
  suffices hgen : ∀ m : List (HKey × List Nat),
      p ∈ (seqinfo.foldl (fun info seq =>
        match alookup d2k seq.1 with
        | some key => insertAppend info key seq.2
        | none => info) m) → p ∈ m ∨ ∃ ds, alookup d2k ds = some p.1 by
    rcases hgen [] h with hin | hout
    · simp at hin
    · exact hout
  clear h
  induction seqinfo with
  | nil => intro m hm; exact Or.inl hm
  | cons seq rest ih =>
    intro m hm
    obtain ⟨d, v⟩ := seq
    simp only [List.foldl_cons] at hm
    revert hm
    cases hd : alookup d2k d with
    | none => exact ih m
    | some key =>
      intro hm
      rcases ih (insertAppend m key v) hm with hin | hout
      · rcases mem_insertAppend m key v p hin with hin2 | hin2
        · exact Or.inl hin2
        · exact Or.inr ⟨d, by rw [hd, hin2]⟩
      · exact Or.inr hout

theorem dataset_to_key_origin (outtype : List (List Char)) (entries : List BidsEntry)
    (ds : List Char) (k : HKey)
    (h : alookup (get_dataset_to_key_mapping outtype entries) ds = some k) :
    ∃ e, e ∈ entries ∧ k = create_bids_key outtype e := by
  suffices hgen : ∀ m : List (List Char × HKey),
      alookup (entries.foldl (fun m dataset => dictInsert m dataset.datasetName
        (create_bids_key outtype dataset)) m) ds = some k →
      alookup m ds = some k ∨ ∃ e, e ∈ entries ∧ k = create_bids_key outtype e by
    rcases hgen [] h with hin | hout
    · simp [alookup] at hin
    · exact hout
  clear h
  induction entries with
  | nil => intro m hm; exact Or.inl hm
  | cons e rest ih =>
    intro m hm
    simp only [List.foldl_cons] at hm
    rcases ih (dictInsert m e.datasetName (create_bids_key outtype e)) hm with hin | hout
    · rw [alookup_dictInsert] at hin
      by_cases hds : ds = e.datasetName
      · rw [if_pos hds] at hin
        exact Or.inr ⟨e, List.mem_cons_self _ _, (Option.some.inj hin).symm⟩
      · rw [if_neg hds] at hin
        exact Or.inl hin
    · rcases hout with ⟨e', he', hk⟩
      exact Or.inr ⟨e', List.mem_cons_of_mem _ he', hk⟩

theorem foldl_dictInsert_of_nodup {α β : Type} [DecidableEq α] (ps : List (α × β)) :
    ∀ acc : List (α × β), (((acc ++ ps).map Prod.fst).Nodup) →
    ps.foldl (fun a p => dictInsert a p.1 p.2) acc = acc ++ ps := by
  induction ps with
  | nil => intro acc _; simp
  | cons p ps' ih =>
    intro acc h
    obtain ⟨k, v⟩ := p
    have hfresh : alookup acc k = none := by
      rw [alookup_eq_none_iff]
      intro hin
      rw [List.map_append, List.nodup_append] at h
      exact h.2.2 hin (by simp)
    simp only [List.foldl_cons]
    rw [dictInsert_of_fresh acc k v hfresh, ih (acc ++ [(k, v)])
      (by rw [List.append_assoc]; simpa using h), List.append_assoc]
    rfl

theorem simplify_runs_eq_map (info : List (HKey × List Nat))
    (h : ((info.map (fun kl =>
        ((if kl.2.length = 1 then collapse_run_key kl.1 else kl.1), kl.2))).map
          Prod.fst).Nodup) :
    simplify_runs info = info.map (fun kl =>
      ((if kl.2.length = 1 then collapse_run_key kl.1 else kl.1), kl.2)) := by
  have hfold := List.foldl_map
    (fun kl : HKey × List Nat => ((if kl.2.length = 1 then collapse_run_key kl.1 else kl.1), kl.2))
    (fun (a : List (HKey × List Nat)) (q : HKey × List Nat) => dictInsert a q.1 q.2)
    info []
  unfold simplify_runs
  rw [show (fun (info_final : List (HKey × List Nat)) (kl : HKey × List Nat) =>
      if kl.2.length = 1 then dictInsert info_final (collapse_run_key kl.1) kl.2
      else dictInsert info_final kl.1 kl.2) = (fun (a : List (HKey × List Nat)) kl =>
      dictInsert a (if kl.2.length = 1 then collapse_run_key kl.1 else kl.1) kl.2) from by
    funext a kl
    by_cases h1 : kl.2.length = 1 <;> simp [h1]]
  rw [← hfold, foldl_dictInsert_of_nodup _ [] (by simpa using h)]
  simp

theorem create_bids_key_template (outtype : List (List Char)) (e : BidsEntry) :
    (create_bids_key outtype e).template =
      TDIR ++ e.bidsDir ++ TPREF ++ (runPlaceholder ++ e.bidsName) := rfl

theorem collapse_create_bids_key (outtype : List (List Char)) (e : BidsEntry)
    (hd : '\x7b' ∉ e.bidsDir) (hn : '\x7b' ∉ e.bidsName) :
    (collapse_run_key (create_bids_key outtype e)).template =
      TDIR ++ e.bidsDir ++ TPREF ++ e.bidsName := by
  show pyReplace runPlaceholder [] (create_bids_key outtype e).template = _
  rw [create_bids_key_template]
  exact strip_create_template e.bidsDir e.bidsName hd hn

/-- C1 (amended).  For the heuristic emitted from an ordered `bids_mapping`
list with brace-free BIDS directory and name fields: seqinfo items are
grouped by heuristic key (the key a dataset name maps to), each group in
first-seen order; a group with exactly one member yields, in the final
info, the key with the run-index placeholder deleted from its template (and
the resulting template contains no placeholder); a group with more than one
member keeps its key unchanged, the template retains the placeholder, and
the group members carry distinct run indices in first-seen order. -/
theorem heuristic_grouping_and_run_collapse
    (outtype : List (List Char)) (entries : List BidsEntry)
    (seqinfo : List (List Char × Nat)) (ds : List Char) (k : HKey)
    (hbf : ∀ e, e ∈ entries → '\x7b' ∉ e.bidsDir ∧ '\x7b' ∉ e.bidsName)
    (hk : alookup (get_dataset_to_key_mapping outtype entries) ds = some k) :
    (alookup (infotodict (get_dataset_to_key_mapping outtype entries) seqinfo) k =
      if seq_group (get_dataset_to_key_mapping outtype entries) seqinfo k = [] then none
      else some (seq_group (get_dataset_to_key_mapping outtype entries) seqinfo k)) ∧
    ((seq_group (get_dataset_to_key_mapping outtype entries) seqinfo k).length = 1 →
      (collapse_run_key k, seq_group (get_dataset_to_key_mapping outtype entries) seqinfo k)
          ∈ simplify_runs (infotodict (get_dataset_to_key_mapping outtype entries) seqinfo) ∧
        ¬ runPlaceholder <:+: (collapse_run_key k).template) ∧
    (1 < (seq_group (get_dataset_to_key_mapping outtype entries) seqinfo k).length →
      (k, seq_group (get_dataset_to_key_mapping outtype entries) seqinfo k)
          ∈ simplify_runs (infotodict (get_dataset_to_key_mapping outtype entries) seqinfo) ∧
        runPlaceholder <:+: k.template ∧
        (runIndices (seq_group (get_dataset_to_key_mapping outtype entries) seqinfo k)).Nodup) := by
  set d2k := get_dataset_to_key_mapping outtype entries with hd2kdef
  set info := infotodict d2k seqinfo with hinfodef
  set grp := seq_group d2k seqinfo k with hgrpdef
  have h1 : alookup info k = if grp = [] then none else some grp :=
    infotodict_alookup d2k seqinfo k
  -- shape of every key stored in the info dict
  have hshape : ∀ p : HKey × List Nat, p ∈ info →
      ∃ e, e ∈ entries ∧ p.1 = create_bids_key outtype e := by
    intro p hp
    obtain ⟨ds', hds'⟩ := infotodict_key_origin d2k seqinfo p hp
    exact dataset_to_key_origin outtype entries ds' p.1 hds'
  have hasPe : ∀ e : BidsEntry, runPlaceholder <:+: (create_bids_key outtype e).template := by
    intro e
    rw [create_bids_key_template]
    exact placeholder_in_template _ _
  have hnoPe : ∀ e, e ∈ entries →
      ¬ runPlaceholder <:+: (collapse_run_key (create_bids_key outtype e)).template := by
    intro e he
    rw [collapse_create_bids_key outtype e (hbf e he).1 (hbf e he).2]
    exact no_placeholder_in_stripped _ _ (hbf e he).1 (hbf e he).2
  -- pairwise distinctness of the final (possibly collapsed) keys
  have hkeysnd : info.Pairwise (fun a b => a.1 ≠ b.1) := by
    have h0 : (info.map Prod.fst).Pairwise (· ≠ ·) := infotodict_keys_nodup d2k seqinfo
    exact (List.pairwise_map).mp h0
  have himp : ∀ a b : HKey × List Nat, a ∈ info → b ∈ info → a.1 ≠ b.1 →
      (if a.2.length = 1 then collapse_run_key a.1 else a.1) ≠
        (if b.2.length = 1 then collapse_run_key b.1 else b.1) := by
    intro a b ha hb hne
    obtain ⟨ea, hea, hka⟩ := hshape a ha
    obtain ⟨eb, heb, hkb⟩ := hshape b hb
    by_cases c1 : a.2.length = 1 <;> by_cases c2 : b.2.length = 1
    · rw [if_pos c1, if_pos c2]
      intro heq
      apply hne
      have ht : (collapse_run_key a.1).template = (collapse_run_key b.1).template := by
        rw [heq]
      rw [hka, hkb, collapse_create_bids_key outtype ea (hbf ea hea).1 (hbf ea hea).2,
        collapse_create_bids_key outtype eb (hbf eb heb).1 (hbf eb heb).2] at ht
      obtain ⟨hdd, hnn⟩ :=
        stripped_template_inj _ _ _ _ (hbf ea hea).1 (hbf eb heb).1 ht
      rw [hka, hkb]
      show create_key ea.bidsDir (runPlaceholder ++ ea.bidsName) outtype =
        create_key eb.bidsDir (runPlaceholder ++ eb.bidsName) outtype
      rw [hdd, hnn]
    · rw [if_pos c1, if_neg c2]
      intro heq
      have hnoP : ¬ runPlaceholder <:+: (collapse_run_key a.1).template := by
        rw [hka]
        exact hnoPe ea hea
      apply hnoP
      rw [heq, hkb]
      exact hasPe eb
    · rw [if_neg c1, if_pos c2]
      intro heq
      have hnoP : ¬ runPlaceholder <:+: (collapse_run_key b.1).template := by
        rw [hkb]
        exact hnoPe eb heb
      apply hnoP
      rw [← heq, hka]
      exact hasPe ea
    · rw [if_neg c1, if_neg c2]
      exact hne
  have hnodup : (((info.map (fun kl =>
      ((if kl.2.length = 1 then collapse_run_key kl.1 else kl.1), kl.2))).map
        Prod.fst).Nodup) := by
    rw [List.map_map]
    show (info.map (fun kl =>
      (if kl.2.length = 1 then collapse_run_key kl.1 else kl.1))).Pairwise (· ≠ ·)
    rw [List.pairwise_map]
    exact hkeysnd.imp_of_mem (fun {a b} ha hb hab => himp a b ha hb hab)
  have hsr := simplify_runs_eq_map info hnodup
  refine ⟨h1, ?_, ?_⟩
  · intro hlen
    have hne : grp ≠ [] := by
      intro h0
      rw [h0] at hlen
      simp at hlen
    have hmem : (k, grp) ∈ info := mem_of_alookup info k grp (by rw [h1, if_neg hne])
    constructor
    · have hmm := List.mem_map_of_mem (fun kl : HKey × List Nat =>
        ((if kl.2.length = 1 then collapse_run_key kl.1 else kl.1), kl.2)) hmem
      rw [← hsr] at hmm
      simpa [hlen] using hmm
    · obtain ⟨e, he, hke⟩ := dataset_to_key_origin outtype entries ds k hk
      rw [hke]
      exact hnoPe e he
  · intro hlen
    have hne : grp ≠ [] := by
      intro h0
      rw [h0] at hlen
      simp at hlen
    have hmem : (k, grp) ∈ info := mem_of_alookup info k grp (by rw [h1, if_neg hne])
    refine ⟨?_, ?_, ?_⟩
    · have hmm := List.mem_map_of_mem (fun kl : HKey × List Nat =>
        ((if kl.2.length = 1 then collapse_run_key kl.1 else kl.1), kl.2)) hmem
      rw [← hsr] at hmm
      have hlne : ¬ grp.length = 1 := by omega
      simpa [hlne] using hmm
    · obtain ⟨e, he, hke⟩ := dataset_to_key_origin outtype entries ds k hk
      rw [hke]
      exact hasPe e
    · apply List.Nodup.map
      · intro x y hxy
        simpa using hxy
      · exact List.nodup_range _

set_option maxRecDepth 8000 in
theorem heuristic_grouping_and_run_collapse_witness :
    ((create_bids_key ["nii.gz".data] ⟨"T1".data, "anat".data, "T1w".data, "sub".data, none⟩,
        [1, 2]) ∈ simplify_runs (infotodict
          (get_dataset_to_key_mapping ["nii.gz".data]
            [⟨"T1".data, "anat".data, "T1w".data, "sub".data, none⟩])
          [("T1".data, 1), ("T1".data, 2)])) ∧
      runPlaceholder <:+:
        (create_bids_key ["nii.gz".data]
          ⟨"T1".data, "anat".data, "T1w".data, "sub".data, none⟩).template ∧
      (runIndices [1, 2]).Nodup := by
  have h := (heuristic_grouping_and_run_collapse ["nii.gz".data]
      [⟨"T1".data, "anat".data, "T1w".data, "sub".data, none⟩]
      [("T1".data, 1), ("T1".data, 2)] "T1".data
      (create_bids_key ["nii.gz".data] ⟨"T1".data, "anat".data, "T1w".data, "sub".data, none⟩)
      (by decide) (by decide)).2.2 (by decide)
  have hg : seq_group (get_dataset_to_key_mapping ["nii.gz".data]
      [⟨"T1".data, "anat".data, "T1w".data, "sub".data, none⟩])
      [("T1".data, 1), ("T1".data, 2)]
      (create_bids_key ["nii.gz".data]
        ⟨"T1".data, "anat".data, "T1w".data, "sub".data, none⟩) = [1, 2] := by decide
  rw [hg] at h
  exact h

set_option maxRecDepth 8000 in
theorem heuristic_grouping_by_dataset_name_cex :
    (([("A".data, (1 : Nat)), ("B".data, 2)].filter
        (fun seq => decide (seq.1 = "A".data))).length = 1) ∧
    simplify_runs (infotodict
        (get_dataset_to_key_mapping ["nii.gz".data]
          [⟨"A".data, "anat".data, "x".data, "s".data, none⟩,
           ⟨"B".data, "anat".data, "x".data, "s".data, none⟩])
        [("A".data, 1), ("B".data, 2)])
      = [(create_bids_key ["nii.gz".data] ⟨"A".data, "anat".data, "x".data, "s".data, none⟩,
          [1, 2])] ∧
    runPlaceholder <:+:
      (create_bids_key ["nii.gz".data]
        ⟨"A".data, "anat".data, "x".data, "s".data, none⟩).template := by
  exact ⟨by decide, by decide, by decide⟩

/-! ## Claim theorems: normalization, query building, run collapsing -/

theorem build_search_txt_eq (study ds subj sess date_from date_to : List Char) :
    build_search_txt study ds subj sess date_from date_to =
      "studyName:".data ++ study.map (fun c => if c = ' ' then '?' else c)
      ++ " AND datasetName:".data ++ ds.map (fun c => if c = ' ' then '?' else c)
      ++ " AND subjectName:".data ++ subj.map (fun c => if c = ' ' then '?' else c)
      ++ " AND examinationComment:".data ++ sess.map (fun c => if c = ' ' then '*' else c)
      ++ " AND examinationDate:[".data ++ date_from ++ " TO ".data ++ date_to ++ "]".data := by
  have hsp : (" ".data : List Char) = [' '] := rfl
  have hq : ("?".data : List Char) = ['?'] := rfl
  have hst : ("*".data : List Char) = ['*'] := rfl
  simp only [build_search_txt, hsp, hq, hst, pyReplace_single_char]

/-- C6.  Subject-name normalization applies each find-and-replace rule in
declaration order as plain sequential string substitution: a split of the
rule list composes sequentially, the spec's example normalizes
`John Doe` to `John_Doe`, and reversing a rule list can change the result
(order dependence). -/
theorem find_and_replace_sequential :
    (∀ (L1 L2 : List (List Char × List Char)) (s : List Char),
      apply_find_and_replace (L1 ++ L2) s
        = apply_find_and_replace L2 (apply_find_and_replace L1 s)) ∧
    apply_find_and_replace [(" ".data, "_".data)] "John Doe".data = "John_Doe".data ∧
    apply_find_and_replace
        (List.reverse [("ab".data, "a".data), ("a".data, "X".data)]) "ab".data
      ≠ apply_find_and_replace [("ab".data, "a".data), ("a".data, "X".data)] "ab".data := by
  refine ⟨?_, by decide, by decide⟩
  intro L1 L2 s
  simp [apply_find_and_replace, List.foldl_append]

/-- C7.  The built query string is the `AND`-combination of the five
filters, with spaces mapped to the single-character wildcard in the study,
dataset and subject names, spaces mapped to the multi-character wildcard in
the session filter, and the date range spliced in verbatim; with the
default `*` bounds the query contains the unbounded range token
`[* TO *]`. -/
theorem search_query_structure :
    (∀ study ds subj sess date_from date_to : List Char,
      build_search_txt study ds subj sess date_from date_to =
        "studyName:".data ++ study.map (fun c => if c = ' ' then '?' else c)
        ++ " AND datasetName:".data ++ ds.map (fun c => if c = ' ' then '?' else c)
        ++ " AND subjectName:".data ++ subj.map (fun c => if c = ' ' then '?' else c)
        ++ " AND examinationComment:".data ++ sess.map (fun c => if c = ' ' then '*' else c)
        ++ " AND examinationDate:[".data ++ date_from ++ " TO ".data ++ date_to
        ++ "]".data) ∧
    (∀ study ds subj sess : List Char,
      "[* TO *]".data <:+: build_search_txt study ds subj sess "*".data "*".data) := by
  have hstep : ∀ (s t l : List Char), l <:+: t → l <:+: s ++ t := by
    intro s t l hl
    rcases hl with ⟨a, b, hab⟩
    exact ⟨s ++ a, b, by rw [← hab]; simp⟩
  refine ⟨build_search_txt_eq, ?_⟩
  intro study ds subj sess
  simp only [build_search_txt, List.append_assoc]
  apply hstep
  apply hstep
  apply hstep
  apply hstep
  apply hstep
  apply hstep
  apply hstep
  apply hstep
  decide

/-- C8 (amended).  The run-collapsing rewrite is a no-op on a key whose
filename template contains no run-index placeholder, hence idempotent on
such keys.  (Full idempotence fails: deleting occurrences can join
placeholder fragments into a new occurrence, see the counterexample.) -/
theorem run_collapse_noop (k : HKey) (h : ¬ runPlaceholder <:+: k.template) :
    collapse_run_key k = k ∧
      collapse_run_key (collapse_run_key k) = collapse_run_key k := by
  have h1 : collapse_run_key k = k := by
    show ({ template := pyReplace runPlaceholder [] k.template,
            outtype := k.outtype } : HKey) = k
    rw [pyReplace_of_ne_nil _ _ _ (by decide), replNE_no_match _ _ _ h]
  exact ⟨h1, by rw [h1, h1]⟩

theorem run_collapse_noop_witness :
    (¬ runPlaceholder <:+: (HKey.mk "abc".data ["nii.gz".data]).template) ∧
    collapse_run_key ⟨"abc".data, ["nii.gz".data]⟩ = ⟨"abc".data, ["nii.gz".data]⟩ := by
  exact ⟨by decide, (run_collapse_noop ⟨"abc".data, ["nii.gz".data]⟩ (by decide)).1⟩

set_option maxRecDepth 4000 in
theorem run_collapse_not_idempotent_cex :
    collapse_run_key (collapse_run_key
        ⟨"run-\x7bitemrun-\x7bitem:02d\x7d_:02d\x7d_".data, ["nii.gz".data]⟩)
      ≠ collapse_run_key
        ⟨"run-\x7bitemrun-\x7bitem:02d\x7d_:02d\x7d_".data, ["nii.gz".data]⟩ := by decide

/-! ## Claim theorems: configuration loading -/

theorem read_json_config_file_of_find (parses : List Char → Bool)
    (data : List (List Char × JVal)) (key : List Char)
    (hfind : LIST_MANDATORY_KEYS_JSON.find?
        (fun key => (alookup data key).isNone) = some key) :
    (read_json_config_file parses data).2 = Except.error (missing_key_msg key) := by
  unfold read_json_config_file
  rw [hfind]

/-- C2.  A configuration document missing any of the three mandatory keys
makes loading terminate with the fatal message naming a missing mandatory
key, and no search query at all is built (the network-facing boundary is
never reached). -/
theorem missing_mandatory_key_fatal (parses : List Char → Bool)
    (data : List (List Char × JVal))
    (h : ∃ key, key ∈ LIST_MANDATORY_KEYS_JSON ∧ alookup data key = none) :
    ∃ key, key ∈ LIST_MANDATORY_KEYS_JSON ∧ alookup data key = none ∧
      (read_json_config_file parses data).2 = Except.error (missing_key_msg key) ∧
      mainQueries parses data = [] := by
  have hne : ¬ LIST_MANDATORY_KEYS_JSON.find?
      (fun key => (alookup data key).isNone) = none := by
    intro hnone
    rcases h with ⟨k0, hk0mem, hk0none⟩
    have := List.find?_eq_none.mp hnone k0 hk0mem
    rw [hk0none] at this
    simp at this
  cases hfind : LIST_MANDATORY_KEYS_JSON.find? (fun key => (alookup data key).isNone) with
  | none => exact absurd hfind hne
  | some key =>
    have hkeyp := List.find?_some hfind
    have hkeymem : key ∈ LIST_MANDATORY_KEYS_JSON := List.mem_of_find?_eq_some hfind
    have herr := read_json_config_file_of_find parses data key hfind
    refine ⟨key, hkeymem, Option.isNone_iff_eq_none.mp hkeyp, herr, ?_⟩
    unfold mainQueries
    rw [herr]

theorem missing_mandatory_key_fatal_witness :
    ∃ key, key ∈ LIST_MANDATORY_KEYS_JSON ∧
      alookup [(K_JSON_STUDY_NAME, JVal.jstr "MyStudy".data),
               (K_JSON_L_SUBJECTS, JVal.jlist [JLeaf.lstr "S1".data])] key = none ∧
      (read_json_config_file (fun _ => true)
        [(K_JSON_STUDY_NAME, JVal.jstr "MyStudy".data),
         (K_JSON_L_SUBJECTS, JVal.jlist [JLeaf.lstr "S1".data])]).2
        = Except.error (missing_key_msg key) ∧
      mainQueries (fun _ => true)
        [(K_JSON_STUDY_NAME, JVal.jstr "MyStudy".data),
         (K_JSON_L_SUBJECTS, JVal.jlist [JLeaf.lstr "S1".data])] = [] :=
  missing_mandatory_key_fatal _ _ ⟨K_JSON_DATA_DICT, by decide, by decide⟩

/-- C5 (code bug).  The source's authorized-key list omits
`find_and_replace_subject`, so a configuration using that supported key is
flagged with the `Unknown key` warning even though the loader then reads
and applies the very same key (its value lands in `list_fars`). -/
theorem find_and_replace_key_flagged_unknown :
    K_JSON_FIND_AND_REPLACE ∉ LIST_AUTHORIZED_KEYS_JSON ∧
    (read_json_config_file (fun _ => true)
        [(K_JSON_STUDY_NAME, JVal.jstr "S".data),
         (K_JSON_L_SUBJECTS, JVal.jlist []),
         (K_JSON_DATA_DICT, JVal.jlist []),
         (K_JSON_FIND_AND_REPLACE,
           JVal.jlist [JLeaf.lobj [(K_FIND, " ".data), (K_REPLACE, "_".data)]])]).1
      = [unknown_key_msg K_JSON_FIND_AND_REPLACE] ∧
    (read_json_config_file (fun _ => true)
        [(K_JSON_STUDY_NAME, JVal.jstr "S".data),
         (K_JSON_L_SUBJECTS, JVal.jlist []),
         (K_JSON_DATA_DICT, JVal.jlist []),
         (K_JSON_FIND_AND_REPLACE,
           JVal.jlist [JLeaf.lobj [(K_FIND, " ".data), (K_REPLACE, "_".data)]])]).2
      = Except.ok
        { study_id := JVal.jstr "S".data
          subjects := JVal.jlist []
          session_id := JVal.jstr "*".data
          data_dict := JVal.jlist []
          list_fars := JVal.jlist [JLeaf.lobj [(K_FIND, " ".data), (K_REPLACE, "_".data)]]
          dcm2niix_path := none
          dcm2niix_opts := none
          date_from := JVal.jstr "*".data
          date_to := JVal.jstr "*".data } := by
  refine ⟨by decide, by decide, ?_⟩
  rfl

/-- C9 (amended).  For a configuration document holding all three mandatory
keys, a `date_from` or `date_to` string the generic date parser rejects is
reported by the printed warning but is non-fatal: loading succeeds and the
unparsed string is kept as the date bound. -/
theorem malformed_date_nonfatal (parses : List Char → Bool)
    (data : List (List Char × JVal)) (s : List Char)
    (hmand : ∀ key, key ∈ LIST_MANDATORY_KEYS_JSON → (alookup data key).isSome)
    (hs : s ≠ []) (hp : parses s = false) :
    (alookup data K_JSON_DATE_FROM = some (JVal.jstr s) →
      ∃ cfg, (read_json_config_file parses data).2 = Except.ok cfg ∧
        incorrect_date_format_msg ∈ (read_json_config_file parses data).1 ∧
        cfg.date_from = JVal.jstr s) ∧
    (alookup data K_JSON_DATE_TO = some (JVal.jstr s) →
      ∃ cfg, (read_json_config_file parses data).2 = Except.ok cfg ∧
        incorrect_date_format_msg ∈ (read_json_config_file parses data).1 ∧
        cfg.date_to = JVal.jstr s) := by
  have hfind : LIST_MANDATORY_KEYS_JSON.find?
      (fun key => (alookup data key).isNone) = none := by
    rw [List.find?_eq_none]
    intro key hkey
    have := hmand key hkey
    simp only [Option.isNone_iff_eq_none]
    intro hnone
    rw [hnone] at this
    simp at this
  have hvne : JVal.jstr s ≠ JVal.jstr [] := by
    intro heq
    exact hs (JVal.jstr.inj heq)
  have hwarn : dateField parses (some (JVal.jstr s))
      = (JVal.jstr s, [incorrect_date_format_msg]) := by
    simp [dateField, hvne, check_date_format, hp]
  constructor
  · intro hdf
    refine ⟨{ study_id := (alookup data K_JSON_STUDY_NAME).getD JVal.jnull
              subjects := (alookup data K_JSON_L_SUBJECTS).getD JVal.jnull
              session_id := (alookup data K_JSON_SESSION).getD (JVal.jstr "*".data)
              data_dict := (alookup data K_JSON_DATA_DICT).getD JVal.jnull
              list_fars := (alookup data K_JSON_FIND_AND_REPLACE).getD (JVal.jlist [])
              dcm2niix_path := alookup data K_DCM2NIIX_PATH
              dcm2niix_opts := alookup data K_DCM2NIIX_OPTS
              date_from := JVal.jstr s
              date_to := (dateField parses (alookup data K_JSON_DATE_TO)).1 }, ?_, ?_, rfl⟩
    · unfold read_json_config_file
      rw [hfind]
      simp only [hdf, hwarn]
    · unfold read_json_config_file
      rw [hfind]
      simp only [hdf, hwarn]
      apply List.mem_append_left
      apply List.mem_append_right
      simp
  · intro hdt
    refine ⟨{ study_id := (alookup data K_JSON_STUDY_NAME).getD JVal.jnull
              subjects := (alookup data K_JSON_L_SUBJECTS).getD JVal.jnull
              session_id := (alookup data K_JSON_SESSION).getD (JVal.jstr "*".data)
              data_dict := (alookup data K_JSON_DATA_DICT).getD JVal.jnull
              list_fars := (alookup data K_JSON_FIND_AND_REPLACE).getD (JVal.jlist [])
              dcm2niix_path := alookup data K_DCM2NIIX_PATH
              dcm2niix_opts := alookup data K_DCM2NIIX_OPTS
              date_from := (dateField parses (alookup data K_JSON_DATE_FROM)).1
              date_to := JVal.jstr s }, ?_, ?_, rfl⟩
    · unfold read_json_config_file
      rw [hfind]
      simp only [hdt, hwarn]
    · unfold read_json_config_file
      rw [hfind]
      simp only [hdt, hwarn]
      apply List.mem_append_right
      simp

theorem malformed_date_nonfatal_witness :
    ∃ cfg, (read_json_config_file (fun _ => false)
        [(K_JSON_STUDY_NAME, JVal.jstr "S".data),
         (K_JSON_L_SUBJECTS, JVal.jlist []),
         (K_JSON_DATA_DICT, JVal.jlist []),
         (K_JSON_DATE_FROM, JVal.jstr "not-a-date".data)]).2 = Except.ok cfg ∧
      incorrect_date_format_msg ∈ (read_json_config_file (fun _ => false)
        [(K_JSON_STUDY_NAME, JVal.jstr "S".data),
         (K_JSON_L_SUBJECTS, JVal.jlist []),
         (K_JSON_DATA_DICT, JVal.jlist []),
         (K_JSON_DATE_FROM, JVal.jstr "not-a-date".data)]).1 ∧
      cfg.date_from = JVal.jstr "not-a-date".data :=
  (malformed_date_nonfatal (fun _ => false)
    [(K_JSON_STUDY_NAME, JVal.jstr "S".data),
     (K_JSON_L_SUBJECTS, JVal.jlist []),
     (K_JSON_DATA_DICT, JVal.jlist []),
     (K_JSON_DATE_FROM, JVal.jstr "not-a-date".data)] "not-a-date".data
    (by decide) (by decide) rfl).1 (by decide)

theorem malformed_date_reported_cex :
    ((fun _ : List Char => false) "2020-99-99".data = false) ∧
    alookup [(K_JSON_DATE_FROM, JVal.jstr "2020-99-99".data)] K_JSON_DATE_FROM
      = some (JVal.jstr "2020-99-99".data) ∧
    (read_json_config_file (fun _ => false)
        [(K_JSON_DATE_FROM, JVal.jstr "2020-99-99".data)]).1 = [] ∧
    (read_json_config_file (fun _ => false)
        [(K_JSON_DATE_FROM, JVal.jstr "2020-99-99".data)]).2
      = Except.error (missing_key_msg K_JSON_STUDY_NAME) := by
  exact ⟨rfl, by decide, by decide, rfl⟩

/-! ## Claim theorems: output file type and status handling -/

/-- C3 (code bug).  `set_output_file_type` accepts exactly `dicom`, `nifti`
and `both` and terminates the process on anything else, but its accepting
branch assigns `self.shanoir_file_type` instead of `self.output_file_type`,
so the outtype embedded in the emitted heuristic stays at the `nifti`
default (`nii.gz` tag) even when `dicom` was selected. -/
theorem output_file_type_selection_ignored :
    heuristic_outtype_after_set SHANOIR_FILE_TYPE_DICOM = Except.ok ["nii.gz".data] ∧
    heuristic_outtype SHANOIR_FILE_TYPE_DICOM = ["dicom".data] ∧
    (set_output_file_type init_download_state SHANOIR_FILE_TYPE_DICOM).map
        (fun st => st.output_file_type) = Except.ok DEFAULT_SHANOIR_FILE_TYPE ∧
    (set_output_file_type init_download_state SHANOIR_FILE_TYPE_DICOM).map
        (fun st => st.shanoir_file_type) = Except.ok SHANOIR_FILE_TYPE_DICOM ∧
    set_output_file_type init_download_state "jpeg".data
      = Except.error ("Unknown shanoir file type ".data ++ "jpeg".data) := by
  exact ⟨rfl, by decide, rfl, rfl, rfl⟩

/-- C4 (code bug).  A response status other than 200 and 204 evaluates
`"..." + response.status_code` (a Python `str + int`) while building the
`banner_msg` argument, raising `TypeError` before the run-log write, so the
status is never logged and the sequence loop does not continue (second
conjunct: a later 204 sequence is never processed), while a 204 alone logs
and continues. -/
theorem error_status_crashes_subject_loop :
    download_subject_loop [] [("q".data, ⟨500, []⟩)]
      = Except.error "TypeError: can only concatenate str (not \"int\") to str".data ∧
    download_subject_loop [] [("q".data, ⟨500, []⟩), ("q2".data, ⟨204, []⟩)]
      = Except.error "TypeError: can only concatenate str (not \"int\") to str".data ∧
    download_subject_loop [] [("q".data, ⟨204, []⟩)]
      = Except.ok (none, ["  >> ERROR : No file found!\n".data]) := by
  exact ⟨rfl, rfl, rfl⟩

/-! ## Claim theorems: subject-id hand-off to the conversion workflow -/

theorem loop_foldlM_cons (list_fars : List (List Char × List Char))
    (sr : List Char × Resp) (rest : List (List Char × Resp))
    (st : Option (List Char) × List (List Char)) :
    (sr :: rest).foldlM (fun st sr => process_sequence list_fars sr.1 sr.2 st) st
      = process_sequence list_fars sr.1 sr.2 st >>=
        (fun st' => rest.foldlM (fun st sr => process_sequence list_fars sr.1 sr.2 st) st') :=
  rfl

theorem except_bind_ok {ε α β : Type} (a : α) (f : α → Except ε β) :
    (Except.ok a >>= f : Except ε β) = f a := rfl

theorem except_bind_error {ε α β : Type} (e : ε) (f : α → Except ε β) :
    ((Except.error e : Except ε α) >>= f : Except ε β) = Except.error e := rfl

theorem items_foldl_fst (list_fars : List (List Char × List Char)) (items : List RespItem) :
    ∀ st : Option (List Char) × List (List Char),
    (items.foldl (fun st item =>
      (some (apply_find_and_replace list_fars item.subjectName),
       st.2 ++ item_log_lines item)) st).1 =
      match items.getLast? with
      | some item => some (apply_find_and_replace list_fars item.subjectName)
      | none => st.1 := by
  induction items with
  | nil => intro st; rfl
  | cons it rest ih =>
    intro st
    simp only [List.foldl_cons]
    rw [ih]
    cases rest with
    | nil => rfl
    | cons r rs =>
      rw [List.getLast?_cons_cons]
      cases hr : (r :: rs).getLast? with
      | some it2 => rfl
      | none => simp at hr

theorem processedItems_cons_200 (q : List Char) (r : Resp)
    (rest : List (List Char × Resp)) (h : r.status_code = 200) :
    processedItems ((q, r) :: rest) = r.content ++ processedItems rest := by
  simp [processedItems, List.filter_cons, h]

theorem processedItems_cons_not200 (q : List Char) (r : Resp)
    (rest : List (List Char × Resp)) (h : ¬ r.status_code = 200) :
    processedItems ((q, r) :: rest) = processedItems rest := by
  simp [processedItems, List.filter_cons, h]

theorem download_subject_loop_ok_aux (list_fars : List (List Char × List Char)) :
    ∀ (steps : List (List Char × Resp)) (sid0 : Option (List Char))
      (logs0 : List (List Char)),
    (∀ sr, sr ∈ steps → sr.2.status_code = 200 ∨ sr.2.status_code = 204) →
    ∃ logs, steps.foldlM (fun st sr => process_sequence list_fars sr.1 sr.2 st) (sid0, logs0)
      = Except.ok ((match (processedItems steps).getLast? with
          | some item => some (apply_find_and_replace list_fars item.subjectName)
          | none => sid0), logs) := by
  intro steps
  induction steps with
  | nil => intro sid0 logs0 _; exact ⟨logs0, rfl⟩
  | cons sr rest ih =>
    intro sid0 logs0 h
    obtain ⟨q, r⟩ := sr
    have hr := h (q, r) (List.mem_cons_self _ _)
    have hrest : ∀ sr, sr ∈ rest → sr.2.status_code = 200 ∨ sr.2.status_code = 204 :=
      fun sr hsr => h sr (List.mem_cons_of_mem _ hsr)
    rw [loop_foldlM_cons]
    rcases hr with h200 | h204
    · have h200 : r.status_code = 200 := h200
      by_cases hc : r.content = []
      · have hp : process_sequence list_fars q r (sid0, logs0)
            = Except.ok (sid0, logs0 ++ [zero_result_warn q]) := by
          simp [process_sequence, h200, hc]
        obtain ⟨logs, hlogs⟩ := ih sid0 (logs0 ++ [zero_result_warn q]) hrest
        refine ⟨logs, ?_⟩
        rw [hp, except_bind_ok, hlogs, processedItems_cons_200 q r rest h200, hc,
          List.nil_append]
      · have hp : process_sequence list_fars q r (sid0, logs0)
            = Except.ok (r.content.foldl (fun st item =>
                (some (apply_find_and_replace list_fars item.subjectName),
                 st.2 ++ item_log_lines item)) (sid0, logs0)) := by
          simp [process_sequence, h200, hc]
        rcases hfold : r.content.foldl (fun st item =>
            (some (apply_find_and_replace list_fars item.subjectName),
             st.2 ++ item_log_lines item)) (sid0, logs0) with ⟨sid1, logs1⟩
        obtain ⟨logs, hlogs⟩ := ih sid1 logs1 hrest
        refine ⟨logs, ?_⟩
        rw [hp, hfold, except_bind_ok, hlogs, processedItems_cons_200 q r rest h200]
        have hsid1 : sid1 = match r.content.getLast? with
            | some item => some (apply_find_and_replace list_fars item.subjectName)
            | none => sid0 := by
          have h0 := items_foldl_fst list_fars r.content (sid0, logs0)
          rw [hfold] at h0
          simpa using h0
        cases hrr : (processedItems rest).getLast? with
        | some it2 =>
          have hrne : processedItems rest ≠ [] := by
            intro h0
            rw [h0] at hrr
            simp at hrr
          rw [List.getLast?_append_of_ne_nil _ hrne, hrr]
        | none =>
          have hrnil : processedItems rest = [] := by
            cases hpr : processedItems rest with
            | nil => rfl
            | cons x xs => rw [hpr] at hrr; simp at hrr
          rw [hrnil, List.append_nil, hsid1]
    · have h204 : r.status_code = 204 := h204
      have hne200 : ¬ r.status_code = 200 := by
        rw [h204]
        decide
      have hp : process_sequence list_fars q r (sid0, logs0)
          = Except.ok (sid0, logs0 ++ ["  >> ERROR : No file found!\n".data]) := by
        simp [process_sequence, hne200, h204]
      obtain ⟨logs, hlogs⟩ := ih sid0 (logs0 ++ ["  >> ERROR : No file found!\n".data]) hrest
      refine ⟨logs, ?_⟩
      rw [hp, except_bind_ok, hlogs, processedItems_cons_not200 q r rest hne200]

theorem download_subject_loop_none_aux (list_fars : List (List Char × List Char)) :
    ∀ (steps : List (List Char × Resp)) (logs0 : List (List Char)),
    (∀ sr, sr ∈ steps → sr.2.status_code = 200 → sr.2.content = []) →
    (∃ e, steps.foldlM (fun st sr => process_sequence list_fars sr.1 sr.2 st) (none, logs0)
        = Except.error e) ∨
    (∃ logs, steps.foldlM (fun st sr => process_sequence list_fars sr.1 sr.2 st) (none, logs0)
        = Except.ok (none, logs)) := by
  intro steps
  induction steps with
  | nil => intro logs0 _; exact Or.inr ⟨logs0, rfl⟩
  | cons sr rest ih =>
    intro logs0 hz
    obtain ⟨q, r⟩ := sr
    have hrest : ∀ sr, sr ∈ rest → sr.2.status_code = 200 → sr.2.content = [] :=
      fun sr hsr => hz sr (List.mem_cons_of_mem _ hsr)
    rw [loop_foldlM_cons]
    by_cases h200 : r.status_code = 200
    · have hc : r.content = [] := hz (q, r) (List.mem_cons_self _ _) h200
      have hp : process_sequence list_fars q r (none, logs0)
          = Except.ok (none, logs0 ++ [zero_result_warn q]) := by
        simp [process_sequence, h200, hc]
      rw [hp, except_bind_ok]
      exact ih (logs0 ++ [zero_result_warn q]) hrest
    · by_cases h204 : r.status_code = 204
      · have hp : process_sequence list_fars q r (none, logs0)
            = Except.ok (none, logs0 ++ ["  >> ERROR : No file found!\n".data]) := by
          simp [process_sequence, h200, h204]
        rw [hp, except_bind_ok]
        exact ih (logs0 ++ ["  >> ERROR : No file found!\n".data]) hrest
      · have hp : process_sequence list_fars q r (none, logs0)
            = Except.error "TypeError: can only concatenate str (not \"int\") to str".data := by
          simp [process_sequence, h200, h204, pyAdd]
        rw [hp, except_bind_error]
        exact Or.inl ⟨_, rfl⟩

/-- C10.  The subject list handed to the conversion workflow comes from the
per-item loop variable: under normal statuses it is exactly the normalized
subject id of the last processed search item; when no item at all was
processed (every response carried zero items or a non-success status) the
variable is never assigned and the hand-off is undefined (no subject list
is ever produced). -/
theorem workflow_subject_list (list_fars : List (List Char × List Char))
    (steps : List (List Char × Resp)) :
    ((∀ sr, sr ∈ steps → sr.2.status_code = 200 ∨ sr.2.status_code = 204) →
      (∃ item, (processedItems steps).getLast? = some item ∧
        workflow_subjs list_fars steps
          = Except.ok [apply_find_and_replace list_fars item.subjectName]) ∨
      (processedItems steps = [] ∧
        ∀ l, workflow_subjs list_fars steps ≠ Except.ok l)) ∧
    ((∀ sr, sr ∈ steps → sr.2.status_code = 200 → sr.2.content = []) →
      ∀ l, workflow_subjs list_fars steps ≠ Except.ok l) := by
  constructor
  · intro h
    obtain ⟨logs, hlogs⟩ := download_subject_loop_ok_aux list_fars steps none [] h
    cases hpl : (processedItems steps).getLast? with
    | some item =>
      left
      rw [hpl] at hlogs
      refine ⟨item, rfl, ?_⟩
      unfold workflow_subjs download_subject_loop
      rw [hlogs]
    | none =>
      right
      have hplnil : processedItems steps = [] := by
        cases hpr : processedItems steps with
        | nil => rfl
        | cons x xs => rw [hpr] at hpl; simp at hpl
      rw [hpl] at hlogs
      refine ⟨hplnil, ?_⟩
      intro l
      unfold workflow_subjs download_subject_loop
      rw [hlogs]
      simp
  · intro hz l
    rcases download_subject_loop_none_aux list_fars steps [] hz with ⟨e, he⟩ | ⟨logs, hok⟩
    · unfold workflow_subjs download_subject_loop
      rw [he]
      simp
    · unfold workflow_subjs download_subject_loop
      rw [hok]
      simp

theorem workflow_subject_list_witness :
    ((∃ item, (processedItems [("q".data,
        (⟨200, [⟨"id1".data, "1".data, "St".data, "John P".data, "sess".data,
          "T1".data, "2020".data⟩,
         ⟨"id2".data, "2".data, "St".data, "John Doe".data, "sess".data,
          "T1".data, "2020".data⟩]⟩ : Resp))]).getLast? = some item ∧
      workflow_subjs [(" ".data, "_".data)] [("q".data,
        (⟨200, [⟨"id1".data, "1".data, "St".data, "John P".data, "sess".data,
          "T1".data, "2020".data⟩,
         ⟨"id2".data, "2".data, "St".data, "John Doe".data, "sess".data,
          "T1".data, "2020".data⟩]⟩ : Resp))]
        = Except.ok [apply_find_and_replace [(" ".data, "_".data)] item.subjectName]) ∨
     (processedItems [("q".data,
        (⟨200, [⟨"id1".data, "1".data, "St".data, "John P".data, "sess".data,
          "T1".data, "2020".data⟩,
         ⟨"id2".data, "2".data, "St".data, "John Doe".data, "sess".data,
          "T1".data, "2020".data⟩]⟩ : Resp))] = [] ∧
      ∀ l, workflow_subjs [(" ".data, "_".data)] [("q".data,
        (⟨200, [⟨"id1".data, "1".data, "St".data, "John P".data, "sess".data,
          "T1".data, "2020".data⟩,
         ⟨"id2".data, "2".data, "St".data, "John Doe".data, "sess".data,
          "T1".data, "2020".data⟩]⟩ : Resp))] ≠ Except.ok l)) ∧
    (∀ l, workflow_subjs [] [("q".data, (⟨204, []⟩ : Resp))] ≠ Except.ok l) :=
  ⟨(workflow_subject_list [(" ".data, "_".data)] [("q".data,
      (⟨200, [⟨"id1".data, "1".data, "St".data, "John P".data, "sess".data,
        "T1".data, "2020".data⟩,
       ⟨"id2".data, "2".data, "St".data, "John Doe".data, "sess".data,
        "T1".data, "2020".data⟩]⟩ : Resp))]).1 (by decide),
   (workflow_subject_list [] [("q".data, (⟨204, []⟩ : Resp))]).2 (by decide)⟩
